import Mathlib

/- Shallow embedding of src/src/linter/VerilatorLinter.ts: the stderr-parsing
   callback of VerilatorLinter.lint (lines 108-453).  The embedding covers the
   header regex (errorParserRegex, lines 163-185), the elaboration regex
   (topRelatedInfoRegex, line 232), the highlight regex (highlightRegex,
   line 257), the bottom-message regex (bottomMessageRegex, line 305), the
   per-line body of the stderr forEach (lines 116-438), and the final
   replacement of the diagnostic collection (clear + set, lines 442-452).

   Strings are modelled as lists of characters; JavaScript regular expressions
   are modelled as executable search functions that reproduce the leftmost
   search and greedy-with-backtracking semantics of the concrete patterns used
   by the source (the inputs of interest are ASCII, so the JS whitespace and
   word classes are modelled by their ASCII parts).  Digit strings captured by
   a \d+ group are converted by Number() in the source; this is modelled as
   exact natural-number conversion, which agrees with JS for all inputs whose
   numeric literals fit in 2^53. -/

abbrev Str := List Char

inductive Sev
  | error
  | warning
  | information
  deriving DecidableEq

inductive LogSev
  | error
  | warn
  deriving DecidableEq

/- vscode column values: concrete numbers, or Number.MAX_VALUE, which the
   source uses as "unbounded / to end of line". -/
inductive ColVal
  | int (n : Int)
  | maxVal
  deriving DecidableEq

structure Range where
  startLine : Int
  startChar : Int
  endLine : Int
  endChar : ColVal
  deriving DecidableEq

/- vscode.DiagnosticRelatedInformation: a location (file + range) and a text. -/
structure RelatedInfo where
  file : Str
  range : Range
  message : Str
  deriving DecidableEq

structure Diagnostic where
  severity : Sev
  code : Option Str
  range : Range
  message : Str
  source : Str
  related : List RelatedInfo
  deriving DecidableEq

/- The location part of an errorParserRegex match: the filePath group plus the
   optional lineNumber and columnNumber groups (digit strings, stored as Nat). -/
structure Loc where
  path : Str
  lineNo : Option Nat
  colNo : Option Nat
  deriving DecidableEq

/- The named groups of an errorParserRegex match. -/
structure Header where
  severity : Str
  errorCode : Option Str
  loc : Option Loc
  verbose : Str
  deriving DecidableEq

/- The named groups of a bottomMessageRegex match: the optional location group
   (filePath, lineNumber, columnNumber, all three required inside the group)
   and the verboseError group. -/
structure BottomMatch where
  loc : Option (Str × Nat × Nat)
  verbose : Str
  deriving DecidableEq

/- The header data used while building bottom messages: rex.groups["filePath"],
   lineNum, colNum and endColNum of the enclosing header block. -/
structure HdrCtx where
  path : Str
  lineNum : Int
  colNum : Int
  endCol : ColVal
  deriving DecidableEq

/- ASCII part of the JS \s class. -/
def isJsWs (c : Char) : Bool :=
  c = ' ' || c = '\t' || c = '\n' || c = '\r' || c = '\x0b' || c = '\x0c'

/- JS \w class: [A-Za-z0-9_]. -/
def isWordChar (c : Char) : Bool := c.isAlphanum || c = '_'

/- The [A-Z0-9] class of the errorCode group. -/
def isCodeChar (c : Char) : Bool := ('A' ≤ c && c ≤ 'Z') || c.isDigit

/- The (\S| ) alternation used by the filePath and verboseError groups:
   any character that is not whitespace, or a space. -/
def isSOrSp (c : Char) : Bool := !(isJsWs c) || c = ' '

/- Remove an expected leading segment, returning the remainder on success. -/
def chopLead : Str → Str → Option Str
  | [], l => some l
  | _ :: _, [] => none
  | p :: ps, c :: cs => if p = c then chopLead ps cs else none

def hasLead (p l : Str) : Bool := (chopLead p l).isSome

def natOfDigits (ds : Str) : Nat := ds.foldl (fun a c => 10 * a + (c.toNat - 48)) 0

/- The fileExtension alternatives, in the source's priority order. -/
def extList : List Str :=
  [".svh".toList, ".sv".toList, ".SV".toList, ".vh".toList, ".vl".toList, ".v".toList]

/- One ((?<g>\d+):)? group: consume digits plus a colon if both are present,
   otherwise consume nothing (greedy \d+ needs a colon right after it; a
   shorter digit run would expose a digit where the colon is required). -/
def optNumColon (cs : Str) : Option Nat × Str :=
  let d := cs.takeWhile Char.isDigit
  match d, cs.drop d.length with
  | [], _ => (none, cs)
  | _ :: _, ':' :: r => (some (natOfDigits d), r)
  | _ :: _, _ => (none, cs)

/- Try the location group of errorParserRegex with the (\S| )+ part of the
   filePath group bound to exactly q characters: an extension alternative must
   follow, then a colon, the two optional number groups, and a space. -/
def tryLocSplit (cs : Str) (q : Nat) : Option (Loc × Str) :=
  extList.findSome? (fun ext =>
    match chopLead ext (cs.drop q) with
    | none => none
    | some r1 =>
      match r1 with
      | ':' :: r2 =>
        let (lno, r3) := optNumColon r2
        let (cno, r4) := optNumColon r3
        match r4 with
        | ' ' :: r5 => some (⟨cs.take q ++ ext, lno, cno⟩, r5)
        | _ => none
      | _ => none)

/- The optional location group of errorParserRegex: the greedy (\S| )+ is
   backtracked from its maximal length down to 1, the first successful split
   wins; if no split succeeds the group matches nothing. -/
def tryLoc (cs : Str) : Option (Loc × Str) :=
  let m := (cs.takeWhile isSOrSp).length
  (List.range m).findSome? (fun k => tryLocSplit cs (m - k))

def mkHeader (sev : Str) (code : Option Str) (rest : Str) : Header :=
  match tryLoc rest with
  | some (loc, r) => ⟨sev, code, some loc, r⟩
  | none => ⟨sev, code, none, rest⟩

/- errorParserRegex matched at one start position: literal %, a nonempty \w+
   severity, optionally -[A-Z0-9]+ for the error code, the literal ": ",
   then the optional location group and the verboseError group (.*), which
   takes the whole remainder of the line. -/
def matchHeaderAt (cs : Str) : Option Header :=
  match cs with
  | '%' :: r0 =>
    let sev := r0.takeWhile isWordChar
    if sev = [] then none else
    match r0.drop sev.length with
    | '-' :: r2 =>
      let code := r2.takeWhile isCodeChar
      if code = [] then none else
      (match r2.drop code.length with
       | ':' :: ' ' :: r4 => some (mkHeader sev (some code) r4)
       | _ => none)
    | ':' :: ' ' :: r4 => some (mkHeader sev none r4)
    | _ => none
  | _ => none

/- errorParserRegex.exec: leftmost match over all start positions, null when
   there is none. -/
def execHeader : Str → Option Header
  | [] => none
  | c :: rest => (matchHeaderAt (c :: rest)).orElse (fun _ => execHeader rest)

/- topRelatedInfoRegex = \s+: \.\.\. (?<verboseError>(\S| )+), matched at one
   start position: a nonempty maximal whitespace run (a shorter run would
   expose whitespace where the colon is required), the literal ": ... ", and
   a nonempty (\S| )+ remainder. -/
def matchTopRelAt (cs : Str) : Option Str :=
  let w := cs.takeWhile isJsWs
  if w = [] then none else
  match chopLead (": ... ".toList) (cs.drop w.length) with
  | none => none
  | some r =>
    let v := r.takeWhile isSOrSp
    if v = [] then none else some v

def execTopRelated : Str → Option Str
  | [] => none
  | c :: rest => (matchTopRelAt (c :: rest)).orElse (fun _ => execTopRelated rest)

/- The additional-message loop (lines 236-253): collect the contiguous run of
   lines matching topRelatedInfoRegex, stopping at the first non-match. -/
def collectElabs : List Str → List Str
  | [] => []
  | l :: rest =>
    match execTopRelated l with
    | some v => v :: collectElabs rest
    | none => []

/- highlightRegex = \|\s+(?<highlight>\^~*), matched at one start position:
   a pipe, a nonempty whitespace run, then the caret and its tildes.  The
   result is the length of the highlight group. -/
def matchHlAt (cs : Str) : Option Nat :=
  match cs with
  | '|' :: r =>
    let w := r.takeWhile isJsWs
    if w = [] then none else
    (match r.drop w.length with
     | '^' :: r2 => some (1 + (r2.takeWhile (fun c => c = '~')).length)
     | _ => none)
  | _ => none

def execHl : Str → Option Nat
  | [] => none
  | c :: rest => (matchHlAt (c :: rest)).orElse (fun _ => execHl rest)

/- The primary-highlight loop (lines 270-289): walk the lines after the
   header, stop at the next %-line, and take the first highlightRegex match. -/
def findPrimaryHl : List Str → Option Nat
  | [] => none
  | l :: rest =>
    if hasLead ("%".toList) l then none
    else
      match execHl l with
      | some n => some n
      | none => findPrimaryHl rest

/- The " \.\.\. (?<verboseError>(\S| )+)" tail of bottomMessageRegex. -/
def finishBottom (r : Str) : Option Str :=
  match chopLead (" ... ".toList) r with
  | none => none
  | some r2 =>
    let v := r2.takeWhile isSOrSp
    if v = [] then none else some v

/- The location group of bottomMessageRegex with the (\S| )+ part bound to
   exactly q characters; inside this group the line and column numbers are
   mandatory, and the " ... " tail must also succeed (on its failure the
   engine would backtrack to another filePath split). -/
def tryBottomSplit (cs : Str) (q : Nat) : Option BottomMatch :=
  extList.findSome? (fun ext =>
    match chopLead ext (cs.drop q) with
    | none => none
    | some r1 =>
      match r1 with
      | ':' :: r2 =>
        let d1 := r2.takeWhile Char.isDigit
        if d1 = [] then none else
        (match r2.drop d1.length with
         | ':' :: r3 =>
           let d2 := r3.takeWhile Char.isDigit
           if d2 = [] then none else
           (match r3.drop d2.length with
            | ':' :: r4 =>
              (finishBottom r4).map
                (fun v => ⟨some (cs.take q ++ ext, natOfDigits d1, natOfDigits d2), v⟩)
            | _ => none)
         | _ => none)
      | _ => none)

def tryBottomLoc (cs : Str) : Option BottomMatch :=
  let m := (cs.takeWhile isSOrSp).length
  (List.range m).findSome? (fun k => tryBottomSplit cs (m - k))

/- bottomMessageRegex matched at one start position: the greedy \s+ run is
   backtracked from its maximal length down to 1; at each run length the
   greedy optional location group is tried first, then the location-free
   alternative. -/
def matchBottomAt (cs : Str) : Option BottomMatch :=
  let w := (cs.takeWhile isJsWs).length
  (List.range w).findSome? (fun k =>
    let rest := cs.drop (w - k)
    match tryBottomLoc rest with
    | some bm => some bm
    | none => (finishBottom rest).map (fun v => (⟨none, v⟩ : BottomMatch)))

def execBottom : Str → Option BottomMatch
  | [] => none
  | c :: rest => (matchBottomAt (c :: rest)).orElse (fun _ => execBottom rest)

/- Lines 338-369: a matched bottom message with its own location gets that
   location with Number.MAX_VALUE as end column; one without a location gets
   the header's file and full range. -/
def mkBottomMsg (hc : HdrCtx) (m : BottomMatch) : RelatedInfo :=
  match m.loc with
  | some (p, ln, cn) =>
    ⟨p, ⟨(ln : Int) - 1, (cn : Int) - 1, (ln : Int) - 1, ColVal.maxVal⟩, m.verbose⟩
  | none => ⟨hc.path, ⟨hc.lineNum, hc.colNum, hc.lineNum, hc.endCol⟩, m.verbose⟩

/- Lines 372-394: replace the range of the last pushed bottom message, keeping
   its start and setting the end to start.character + highlight length. -/
def updateLast : List RelatedInfo → Nat → List RelatedInfo
  | [], _ => []
  | [m], n =>
    [{ m with range :=
        ⟨m.range.startLine, m.range.startChar, m.range.startLine,
         ColVal.int (m.range.startChar + (n : Int))⟩ }]
  | m :: m2 :: ms, n => m :: updateLast (m2 :: ms) n

/- One iteration of the bottom-message loop (lines 312-395): isBottomHighlight
   is decided with the accumulator length before the push, while the range
   update is applied to the accumulator after the push. -/
def bottomStep (hc : HdrCtx) (acc : List RelatedInfo) (l : Str) : List RelatedInfo :=
  let hlOk := (!acc.isEmpty) && (execHl l).isSome
  let acc1 :=
    match execBottom l with
    | some m => acc ++ [mkBottomMsg hc m]
    | none => acc
  if hlOk then
    match execHl l with
    | some n => updateLast acc1 n
    | none => acc1
  else acc1

/- The bottom-message loop: walk the lines after the header, stopping at the
   next %-line. -/
def bottomScan (hc : HdrCtx) : List Str → List RelatedInfo → List RelatedInfo
  | [], acc => acc
  | l :: rest, acc =>
    if hasLead ("%".toList) l then acc
    else bottomScan hc rest (bottomStep hc acc l)

/- convertToSeverity (lines 54-61). -/
def sevOf (s : Str) : Sev :=
  if hasLead ("Error".toList) s then Sev.error
  else if hasLead ("Warning".toList) s then Sev.warning
  else Sev.information

/- The stderr-passthrough branch for %-lines (lines 189-195): exact string
   comparison of the severity group, with logger.error as the default. -/
def logSevOfHeader (h : Header) : LogSev :=
  if h.severity = "Error".toList then LogSev.error
  else if h.severity = "Warning".toList then LogSev.warn
  else LogSev.error

/- The backward severity scan (lines 122-138), fed with the lines up to and
   including the current one, nearest first. -/
def lastDiagTypeAux : List Str → LogSev
  | [] => LogSev.error
  | l :: rest =>
    if hasLead ("%Error".toList) l then LogSev.error
    else if hasLead ("%Warning".toList) l then LogSev.warn
    else lastDiagTypeAux rest

def lastDiagType (lines : List Str) (i : Nat) : LogSev :=
  lastDiagTypeAux ((lines.take (i + 1)).reverse)

/- filesDiag: an insertion-ordered map from file path to diagnostics list,
   modelled as an association list (JS Map preserves key insertion order). -/
abbrev Fd := List (Str × List Diagnostic)

def lookupFd : Fd → Str → Option (List Diagnostic)
  | [], _ => none
  | (p, ds) :: rest, q => if p = q then some ds else lookupFd rest q

/- Lines 214-217: create an empty entry for the file if there is none. -/
def ensureFd (fd : Fd) (p : Str) : Fd :=
  match lookupFd fd p with
  | some _ => fd
  | none => fd ++ [(p, [])]

/- Line 417: filesDiag.get(path).push(diag); call sites guarantee the entry
   exists. -/
def pushFd : Fd → Str → Diagnostic → Fd
  | [], _, _ => []
  | (p, ds) :: rest, q, d =>
    if p = q then (p, ds ++ [d]) :: rest else (p, ds) :: pushFd rest q d

def diagsOf (fd : Fd) (p : Str) : List Diagnostic := (lookupFd fd p).getD []

/- lineNum, colNum, endColNum of a header block (lines 221-226 and 283-288). -/
def headerLineNum (ln : Nat) : Int := (ln : Int) - 1

def headerColNum (loc : Loc) : Int :=
  match loc.colNo with
  | some c => (c : Int) - 1
  | none => 0

def headerEndCol (colNum : Int) (tail : List Str) : ColVal :=
  match findPrimaryHl tail with
  | some n => ColVal.int (colNum + (n : Int))
  | none => ColVal.maxVal

def headerRange (loc : Loc) (ln : Nat) (tail : List Str) : Range :=
  ⟨headerLineNum ln, headerColNum loc, headerLineNum ln,
   headerEndCol (headerColNum loc) tail⟩

def headerCtx (loc : Loc) (ln : Nat) (tail : List Str) : HdrCtx :=
  ⟨loc.path, headerLineNum ln, headerColNum loc,
   headerEndCol (headerColNum loc) tail⟩

/- Lines 402-434: the diagnostic emitted for a header with a location and a
   parsed line number; related information is the bottom messages followed by
   the elaboration messages, the latter at the header's own location. -/
def buildDiag (h : Header) (loc : Loc) (ln : Nat) (tail : List Str) : Diagnostic :=
  { severity := sevOf h.severity,
    code := h.errorCode,
    range := headerRange loc ln tail,
    message := h.verbose,
    source := "verilator".toList,
    related := bottomScan (headerCtx loc ln tail) tail []
      ++ (collectElabs tail).map (fun v => ⟨loc.path, headerRange loc ln tail, v⟩) }

def headerLineNo (h : Header) : Option Nat :=
  match h.loc with
  | none => none
  | some loc => loc.lineNo

/- The %-line branch of the forEach body after a successful regex match:
   log the line (189-195), return if there is no filePath group (202-204),
   create the per-file entry (214-217), return if the line number is NaN
   (409; the source computes the continuation scans before this check but
   discards their results, so checking first is observationally identical),
   otherwise push the built diagnostic (412-434). -/
def processHeader (lines : List Str) (i : Nat) (fd : Fd) (h : Header) :
    List (LogSev × Str) × Fd :=
  let line := lines.getD i []
  let logs := [(logSevOfHeader h, line)]
  match h.loc with
  | none => (logs, fd)
  | some loc =>
    let fd1 := ensureFd fd loc.path
    match loc.lineNo with
    | none => (logs, fd1)
    | some ln => (logs, pushFd fd1 loc.path (buildDiag h loc ln (lines.drop (i + 1))))

/- One iteration of the forEach body.  The result is the emitted log events
   and the updated filesDiag; none models the uncaught TypeError thrown at
   line 191 when errorParserRegex.exec returned null for a %-line. -/
def processLine (lines : List Str) (i : Nat) (fd : Fd) :
    Option (List (LogSev × Str) × Fd) :=
  let line := lines.getD i []
  if hasLead ("%".toList) line then
    match execHeader line with
    | none => none
    | some h => some (processHeader lines i fd h)
  else
    some ([(lastDiagType lines i, line)], fd)

inductive PassResult
  | crash (i : Nat)
  | ok (logs : List (LogSev × Str)) (fd : Fd)
  deriving DecidableEq

def runFrom (lines : List Str) : Nat → Nat → List (LogSev × Str) → Fd → PassResult
  | 0, _, logs, fd => PassResult.ok logs fd
  | todo + 1, i, logs, fd =>
    match processLine lines i fd with
    | none => PassResult.crash i
    | some (evs, fd1) => runFrom lines todo (i + 1) (logs ++ evs) fd1

/- The whole parsing callback over the split stderr lines. -/
def processPass (lines : List Str) : PassResult := runFrom lines lines.length 0 [] []

def passLogs : PassResult → Option (List (LogSev × Str))
  | PassResult.ok logs _ => some logs
  | PassResult.crash _ => none

def passFd : PassResult → Option Fd
  | PassResult.ok _ fd => some fd
  | PassResult.crash _ => none

/- Lines 442-452: on a completed pass the diagnostic collection is cleared and
   repopulated from filesDiag alone; on a crash the clear is never reached and
   the previous consumer-visible state survives. -/
def applyPass (prev : Fd) (lines : List Str) : Fd :=
  match processPass lines with
  | PassResult.ok _ fd => fd
  | PassResult.crash _ => prev

/- stderr.split on the regular expression matching an optional carriage return
   followed by a newline (line 116). -/
def splitNl : Str → List Str
  | [] => [[]]
  | '\n' :: rest => [] :: splitNl rest
  | c :: rest =>
    match splitNl rest with
    | [] => [[c]]
    | l :: ls => (c :: l) :: ls

def stripCr (l : Str) : Str := if l.getLast? = some '\r' then l.dropLast else l

def splitLines (s : Str) : List Str := (splitNl s).map stripCr

/- A sample diagnostic block used as a concrete instantiation: a header with
   an error code and location, one elaboration line, one secondary message
   with its own location, and one highlight line. -/
def sampleBlock : List Str :=
  ["%Warning-WIDTH: top.sv:10:3: Width mismatch".toList,
   "   : ... In instance top".toList,
   "  b.sv:3:7: ... from here".toList,
   " | ^~".toList]

/- The header groups that errorParserRegex extracts from the first line of
   sampleBlock. -/
def sampleHeader : Header :=
  ⟨"Warning".toList, some ("WIDTH".toList),
   some ⟨"top.sv".toList, some 10, some 3⟩, "Width mismatch".toList⟩

theorem lookupFd_append (fd : Fd) (q : Str) (ds : List Diagnostic) (p : Str) :
    lookupFd (fd ++ [(q, ds)]) p =
      match lookupFd fd p with
      | some x => some x
      | none => if q = p then some ds else none := by
  induction fd with
  | nil => rfl
  | cons a rest ih =>
    obtain ⟨ap, ads⟩ := a
    by_cases hap : ap = p
    · simp [lookupFd, hap]
    · simp [lookupFd, hap, ih]

theorem diagsOf_ensureFd (fd : Fd) (q p : Str) :
    diagsOf (ensureFd fd q) p = diagsOf fd p := by
  unfold ensureFd
  cases hq : lookupFd fd q with
  | some ds => rfl
  | none =>
    unfold diagsOf
    rw [lookupFd_append]
    cases hp : lookupFd fd p with
    | some x => rfl
    | none => by_cases hqp : q = p <;> simp [hqp]

theorem lookupFd_pushFd_self (fd : Fd) (q : Str) (d : Diagnostic) (ds : List Diagnostic)
    (h : lookupFd fd q = some ds) :
    lookupFd (pushFd fd q d) q = some (ds ++ [d]) := by
  induction fd with
  | nil => cases h
  | cons a rest ih =>
    obtain ⟨ap, ads⟩ := a
    by_cases hap : ap = q
    · subst hap
      simp [lookupFd] at h
      subst h
      simp [pushFd, lookupFd]
    · simp [lookupFd, hap] at h
      simp [pushFd, lookupFd, hap, ih h]

theorem diagsOf_pushFd_ensureFd (fd : Fd) (q : Str) (d : Diagnostic) :
    diagsOf (pushFd (ensureFd fd q) q d) q = diagsOf fd q ++ [d] := by
  cases hq : lookupFd fd q with
  | some ds =>
    have he : ensureFd fd q = fd := by unfold ensureFd; rw [hq]
    unfold diagsOf
    rw [he, lookupFd_pushFd_self fd q d ds hq, hq]
    rfl
  | none =>
    have he : ensureFd fd q = fd ++ [(q, [])] := by unfold ensureFd; rw [hq]
    have hl : lookupFd (fd ++ [(q, [])]) q = some [] := by
      simp [lookupFd_append, hq]
    unfold diagsOf
    rw [he, lookupFd_pushFd_self _ q d [] hl, hq]
    rfl

theorem updateLast_cons (a : RelatedInfo) (l : List RelatedInfo) (n : Nat) (h : l ≠ []) :
    updateLast (a :: l) n = a :: updateLast l n := by
  cases l with
  | nil => exact absurd rfl h
  | cons b bs => rfl

theorem updateLast_append (as : List RelatedInfo) (m : RelatedInfo) (n : Nat) :
    updateLast (as ++ [m]) n =
      as ++ [{ m with range := ⟨m.range.startLine, m.range.startChar,
        m.range.startLine, ColVal.int (m.range.startChar + (n : Int))⟩ }] := by
  induction as with
  | nil => rfl
  | cons a as ih =>
    rw [List.cons_append, updateLast_cons a (as ++ [m]) n (by simp), ih, List.cons_append]

/-- C1: the claim states that a parse pass always runs to completion, every
unrecognized line degrading to a logged passthrough, and in particular that a
line starting with a percent sign but not matching the header grammar (for
example one with no colon-space after the severity word) never makes the pass
fail.  The code violates this: on the input block consisting of the single
line "%Oops" the header regex has no match anywhere in the line, exec returns
null, and the unguarded access to its groups throws, aborting the pass.  This
theorem evaluates the embedded pass at that failing input. -/
theorem c1_pass_crashes_on_unmatched_percent_line :
    processPass ["%Oops".toList] = PassResult.crash 0 := by decide

/-- C3: one step of the bottom-message loop on a line that matches the
bottom-message regex and contains no highlight: if the match carries its own
complete file+line+column location, the pushed RelatedMessage carries exactly
that file and 0-based line/column with an Unbounded (MAX_VALUE) end column,
fully replacing the header's location; if it carries no location, the
RelatedMessage inherits the owning header's file and full range (start line,
start column and end column). -/
theorem c3_secondary_message_location_rule (hc : HdrCtx) (acc : List RelatedInfo)
    (l : Str) (m : BottomMatch)
    (hm : execBottom l = some m) (hhl : execHl l = none) :
    bottomStep hc acc l = acc ++
      [match m.loc with
       | some (p, ln, cn) =>
         ⟨p, ⟨(ln : Int) - 1, (cn : Int) - 1, (ln : Int) - 1, ColVal.maxVal⟩, m.verbose⟩
       | none => ⟨hc.path, ⟨hc.lineNum, hc.colNum, hc.lineNum, hc.endCol⟩, m.verbose⟩] := by
  unfold bottomStep
  rw [hm, hhl]
  simp [mkBottomMsg]

/-- C3 witness: the secondary line "  b.sv:3:7: ... from here" inside the block
of a header at top.sv line 10 column 3 produces a RelatedMessage at b.sv,
0-based line 2 column 6, with MAX_VALUE end column. -/
theorem c3_secondary_message_location_rule_witness :
    bottomStep ⟨"top.sv".toList, 9, 2, ColVal.int 4⟩ []
      ("  b.sv:3:7: ... from here".toList) =
      [⟨"b.sv".toList, ⟨2, 6, 2, ColVal.maxVal⟩, "from here".toList⟩] := by
  have h := c3_secondary_message_location_rule ⟨"top.sv".toList, 9, 2, ColVal.int 4⟩ []
    ("  b.sv:3:7: ... from here".toList)
    ⟨some ("b.sv".toList, 3, 7), "from here".toList⟩ (by decide) (by decide)
  exact h.trans (by decide)

/-- C4 counterexample: the claim says at most one highlight line refines a
secondary message and a second consecutive highlight line leaves every range
unchanged.  On the block "%Error: a.sv:2:3: bad" / "   ... note one" /
" | ^" (caret alone) / " | ^~~" (caret plus two tildes) the first highlight
sets the secondary message's end column to 2+1=3, and the second highlight is
applied again to the same message, moving its end column to 2+3=5 — not left
at 3 as the claim requires. -/
theorem c4_second_highlight_counterexample :
    passFd (processPass ["%Error: a.sv:2:3: bad".toList, "   ... note one".toList,
      " | ^".toList, " | ^~~".toList]) =
      some [("a.sv".toList,
        [{ severity := Sev.error, code := none,
           range := ⟨1, 2, 1, ColVal.int 3⟩,
           message := "bad".toList, source := "verilator".toList,
           related := [⟨"a.sv".toList, ⟨1, 2, 1, ColVal.int 5⟩, "note one".toList⟩] }])]
    ∧ ColVal.int 5 ≠ ColVal.int 3 := ⟨by decide, by decide⟩

/-- C4 amended: every line of the bottom-message window that matches the
highlight regex (and is not itself a bottom message) refines the most recently
pushed secondary message, setting its end column to startCol0 plus the length
of the caret-and-tildes group — regardless of whether that message was already
refined.  Consecutive highlight lines are therefore each applied to the same
message in turn and the last one wins, rather than the second being ignored
with every range left unchanged. -/
theorem c4_amended_highlight_reapplied (hc : HdrCtx) (as : List RelatedInfo)
    (m : RelatedInfo) (l : Str) (n : Nat)
    (hnm : execBottom l = none) (hhl : execHl l = some n) :
    bottomStep hc (as ++ [m]) l =
      as ++ [{ m with range := ⟨m.range.startLine, m.range.startChar,
        m.range.startLine, ColVal.int (m.range.startChar + (n : Int))⟩ }] := by
  unfold bottomStep
  rw [hnm, hhl]
  have hne : (as ++ [m]).isEmpty = false := by
    cases as <;> rfl
  simp [hne, updateLast_append]

/-- C4 amended witness: the highlight line " | ^~~" applied to an accumulator
holding one secondary message ending at column 3 moves that message's end
column to 2+3=5. -/
theorem c4_amended_highlight_reapplied_witness :
    bottomStep ⟨"a.sv".toList, 1, 2, ColVal.int 3⟩
      [⟨"a.sv".toList, ⟨1, 2, 1, ColVal.int 3⟩, "note one".toList⟩] (" | ^~~".toList) =
      [⟨"a.sv".toList, ⟨1, 2, 1, ColVal.int 5⟩, "note one".toList⟩] := by
  have h := c4_amended_highlight_reapplied ⟨"a.sv".toList, 1, 2, ColVal.int 3⟩ []
    (⟨"a.sv".toList, ⟨1, 2, 1, ColVal.int 3⟩, "note one".toList⟩ : RelatedInfo)
    (" | ^~~".toList) 3 (by decide) (by decide)
  exact h.trans (by decide)

/-- C6 counterexample: a header at col0=4 followed by the continuation line
"      ^~~~" — the literal line from the claim, which contains no pipe
character — does not yield endCol0 = 9: the highlight regex requires a pipe
before the caret, so no highlight is found and the emitted Diagnostic's end
column stays MAX_VALUE (Unbounded), not 9. -/
theorem c6_highlight_sizing_counterexample :
    passFd (processPass ["%Error: a.sv:2:5: bad".toList, "      ^~~~".toList]) =
      some [("a.sv".toList,
        [{ severity := Sev.error, code := none,
           range := ⟨1, 4, 1, ColVal.maxVal⟩,
           message := "bad".toList, source := "verilator".toList, related := [] }])]
    ∧ ColVal.maxVal ≠ ColVal.int 9 := ⟨by decide, by decide⟩

/-- C6 amended: a highlight continuation line must contain the pipe separator,
and endCol0 = col0 + length(caret+tildes); for a header at col0=4 followed by
"  2 |      ^~~~~" (pipe, one caret, four tildes: length 5) the emitted
Diagnostic's end column is 4 + 5 = 9. -/
theorem c6_amended_highlight_sizing :
    passFd (processPass ["%Error: a.sv:2:5: bad".toList, "  2 |      ^~~~~".toList]) =
      some [("a.sv".toList,
        [{ severity := Sev.error, code := none,
           range := ⟨1, 4, 1, ColVal.int 9⟩,
           message := "bad".toList, source := "verilator".toList, related := [] }])] := by
  decide

/-- C8 counterexample: splitting the empty input buffer yields one empty line,
and the pass forwards that line to the sink as an Error passthrough: the log
list has one entry, refuting the claim that no passthrough lines are
forwarded (the DiagnosticSet is empty, as claimed). -/
theorem c8_empty_buffer_counterexample :
    passLogs (processPass (splitLines "".toList)) = some [(LogSev.error, [])]
    ∧ (some [(LogSev.error, ([] : Str))] ≠ some ([] : List (LogSev × Str)))
    ∧ passFd (processPass (splitLines "".toList)) = some [] :=
  ⟨by decide, by decide, by decide⟩

/-- C8 amended: a pass over the empty input buffer yields an empty
DiagnosticSet and forwards exactly one passthrough line — the single empty
line produced by the split, logged with the default severity Error. -/
theorem c8_amended_empty_buffer :
    processPass (splitLines "".toList) = PassResult.ok [(LogSev.error, [])] [] := by
  decide

/-- C2: a header line whose location has no parseable line number emits zero
Diagnostics and zero related messages: whether the location token failed to
match at all (as for "%Error: foo.sv:NOTANUMBER: msg", where the filePath
group is absent) or matched without a lineNumber group, no per-file
diagnostics list changes (at most an empty entry is created); and every
non-percent continuation line of the block leaves the diagnostic map fully
unchanged, so the whole block contributes nothing structured. -/
theorem c2_unparseable_line_number_emits_nothing :
    (∀ (lines : List Str) (i : Nat) (fd : Fd) (h : Header),
      execHeader (lines.getD i []) = some h → headerLineNo h = none →
      ∃ logs fd2, processLine lines i fd = some (logs, fd2) ∧
        ∀ p, diagsOf fd2 p = diagsOf fd p)
    ∧ (∀ (lines : List Str) (i : Nat) (fd : Fd),
      hasLead ("%".toList) (lines.getD i []) = false →
      processLine lines i fd = some ([(lastDiagType lines i, lines.getD i [])], fd)) := by
  constructor
  · intro lines i fd h hx hno
    simp only [processLine]
    by_cases hp : hasLead ("%".toList) (lines.getD i []) = true
    · rw [if_pos hp, hx]
      obtain ⟨sev, code, oloc, verb⟩ := h
      cases oloc with
      | none => exact ⟨_, fd, rfl, fun p => rfl⟩
      | some loc =>
        obtain ⟨path, olno, ocno⟩ := loc
        have hln : olno = none := hno
        subst hln
        exact ⟨_, _, rfl, fun p => diagsOf_ensureFd fd path p⟩
    · rw [if_neg hp]
      exact ⟨_, fd, rfl, fun p => rfl⟩
  · intro lines i fd hp
    have hp' : ¬ hasLead ("%".toList) (lines.getD i []) = true := by
      intro hc
      rw [hp] at hc
      exact Bool.false_ne_true hc
    simp only [processLine]
    rw [if_neg hp']

/-- C2 witness: the header "%Error: foo.sv:NOTANUMBER: msg" parses with an
absent filePath group (so no line number), and processing it changes no
per-file diagnostics list. -/
theorem c2_unparseable_line_number_emits_nothing_witness :
    ∃ logs fd2, processLine ["%Error: foo.sv:NOTANUMBER: msg".toList] 0 [] =
        some (logs, fd2) ∧ ∀ p, diagsOf fd2 p = diagsOf [] p :=
  c2_unparseable_line_number_emits_nothing.1
    ["%Error: foo.sv:NOTANUMBER: msg".toList] 0 []
    ⟨"Error".toList, none, none, "foo.sv:NOTANUMBER: msg".toList⟩
    (by decide) (by decide)

/-- C5: replace semantics — after a second pass that completes, the
consumer-visible diagnostic state is exactly the second pass's filesDiag,
whatever the first pass and the prior state were (the collection is cleared
and repopulated from the new mapping alone); in particular a file with no
entry in the second pass's mapping has no diagnostics afterwards. -/
theorem c5_replace_semantics (prev : Fd) (l1 l2 : List Str)
    (logs : List (LogSev × Str)) (fd2 : Fd)
    (h2 : processPass l2 = PassResult.ok logs fd2) :
    applyPass (applyPass prev l1) l2 = fd2 ∧
    ∀ p, lookupFd fd2 p = none →
      lookupFd (applyPass (applyPass prev l1) l2) p = none := by
  have hmain : applyPass (applyPass prev l1) l2 = fd2 := by
    unfold applyPass
    rw [h2]
  refine ⟨hmain, fun p hp => ?_⟩
  rw [hmain]
  exact hp

/-- C5 witness: pass 1 over headers for a.sv and b.sv followed by pass 2 over
a header for a.sv only leaves a state equal to pass 2's mapping, in which
b.sv has no entry. -/
theorem c5_replace_semantics_witness :
    applyPass (applyPass []
        ["%Error: a.sv:1:1: ma".toList, "%Error: b.sv:1:1: mb".toList])
        ["%Error: a.sv:1:1: ma".toList] =
      [("a.sv".toList,
        [{ severity := Sev.error, code := none, range := ⟨0, 0, 0, ColVal.maxVal⟩,
           message := "ma".toList, source := "verilator".toList, related := [] }])]
    ∧ lookupFd [("a.sv".toList,
        [{ severity := Sev.error, code := none, range := ⟨0, 0, 0, ColVal.maxVal⟩,
           message := "ma".toList, source := "verilator".toList, related := [] }])]
        ("b.sv".toList) = none := by
  refine ⟨(c5_replace_semantics [] _ _
    [(LogSev.error, "%Error: a.sv:1:1: ma".toList)] _ (by decide)).1, by decide⟩

/-- C7 counterexample: the header line "%Error: a.sv:1:1: m" produces a
structured Diagnostic and is nevertheless delivered to the passthrough sink
(the source logs every percent-line at its stderr-passthrough branch), so it
is false that a line is forwarded only if it never gained a Diagnostic. -/
theorem c7_header_also_logged_counterexample :
    processPass ["%Error: a.sv:1:1: m".toList] =
      PassResult.ok [(LogSev.error, "%Error: a.sv:1:1: m".toList)]
        [("a.sv".toList,
          [{ severity := Sev.error, code := none, range := ⟨0, 0, 0, ColVal.maxVal⟩,
             message := "m".toList, source := "verilator".toList, related := [] }])]
    ∧ [(LogSev.error, "%Error: a.sv:1:1: m".toList)] ≠ ([] : List (LogSev × Str)) :=
  ⟨by decide, by decide⟩

/-- C7 amended: every line processed without crashing is forwarded to the
logging sink exactly once, with its full text — including header lines that
produce a Diagnostic; forwarding is not restricted to lines that never gained
a structured Diagnostic. -/
theorem c7_amended_every_line_logged (lines : List Str) (i : Nat) (fd : Fd)
    (evs : List (LogSev × Str)) (fd2 : Fd)
    (h : processLine lines i fd = some (evs, fd2)) :
    ∃ s, evs = [(s, lines.getD i [])] := by
  simp only [processLine] at h
  by_cases hp : hasLead ("%".toList) (lines.getD i []) = true
  · rw [if_pos hp] at h
    cases hx : execHeader (lines.getD i []) with
    | none => rw [hx] at h; cases h
    | some hd =>
      rw [hx] at h
      obtain ⟨sev, code, oloc, verb⟩ := hd
      refine ⟨logSevOfHeader ⟨sev, code, oloc, verb⟩, ?_⟩
      cases oloc with
      | none =>
        simp only [processHeader, Option.some.injEq, Prod.mk.injEq] at h
        exact h.1.symm
      | some loc =>
        obtain ⟨path, olno, ocno⟩ := loc
        cases olno with
        | none =>
          simp only [processHeader, Option.some.injEq, Prod.mk.injEq] at h
          exact h.1.symm
        | some ln =>
          simp only [processHeader, Option.some.injEq, Prod.mk.injEq] at h
          exact h.1.symm
  · rw [if_neg hp] at h
    simp only [Option.some.injEq, Prod.mk.injEq] at h
    exact ⟨lastDiagType lines i, h.1.symm⟩

/-- C7 amended witness: the header line "%Error: a.sv:1:1: mm", which emits a
Diagnostic, is also logged exactly once with its own text. -/
theorem c7_amended_every_line_logged_witness :
    ∃ s, [(LogSev.error, "%Error: a.sv:1:1: mm".toList)] =
      [(s, (["%Error: a.sv:1:1: mm".toList].getD 0 []))] :=
  c7_amended_every_line_logged ["%Error: a.sv:1:1: mm".toList] 0 []
    [(LogSev.error, "%Error: a.sv:1:1: mm".toList)]
    [("a.sv".toList,
      [{ severity := Sev.error, code := none, range := ⟨0, 0, 0, ColVal.maxVal⟩,
         message := "mm".toList, source := "verilator".toList, related := [] }])]
    (by decide)

/-- C9: for a header line with a location and a parsed line number, the
emitted Diagnostic is appended to that file's diagnostics list, and its
related information is exactly the bottom-message scan of the continuation
window followed by the elaboration messages mapped to the header's own file
and range — secondary messages first in discovery order, then elaboration
messages in discovery order. -/
theorem c9_related_is_bottoms_then_elabs (lines : List Str) (i : Nat) (fd : Fd)
    (h : Header) (loc : Loc) (ln : Nat)
    (hstart : hasLead ("%".toList) (lines.getD i []) = true)
    (hx : execHeader (lines.getD i []) = some h)
    (hloc : h.loc = some loc) (hln : loc.lineNo = some ln) :
    ∃ logs fd2, processLine lines i fd = some (logs, fd2) ∧
      diagsOf fd2 loc.path =
        diagsOf fd loc.path ++ [buildDiag h loc ln (lines.drop (i + 1))] ∧
      (buildDiag h loc ln (lines.drop (i + 1))).related =
        bottomScan (headerCtx loc ln (lines.drop (i + 1))) (lines.drop (i + 1)) []
          ++ (collectElabs (lines.drop (i + 1))).map
              (fun v => ⟨loc.path, headerRange loc ln (lines.drop (i + 1)), v⟩) := by
  obtain ⟨path, olno, ocno⟩ := loc
  have hln' : olno = some ln := hln
  subst hln'
  obtain ⟨sev, code, oloc, verb⟩ := h
  have hloc' : oloc = some ⟨path, some ln, ocno⟩ := hloc
  subst hloc'
  refine ⟨[(logSevOfHeader ⟨sev, code, some ⟨path, some ln, ocno⟩, verb⟩, lines.getD i [])],
    pushFd (ensureFd fd path) path
      (buildDiag ⟨sev, code, some ⟨path, some ln, ocno⟩, verb⟩ ⟨path, some ln, ocno⟩ ln
        (lines.drop (i + 1))),
    ?_, diagsOf_pushFd_ensureFd fd path _, rfl⟩
  simp only [processLine]
  rw [if_pos hstart, hx]
  rfl

/-- C9 witness: on sampleBlock the header's Diagnostic is appended for top.sv
and its related information is the secondary message for b.sv followed by the
elaboration message at the header's own range. -/
theorem c9_related_is_bottoms_then_elabs_witness :
    ∃ logs fd2, processLine sampleBlock 0 [] = some (logs, fd2) ∧
      diagsOf fd2 ("top.sv".toList) =
        diagsOf [] ("top.sv".toList)
          ++ [buildDiag sampleHeader ⟨"top.sv".toList, some 10, some 3⟩ 10
              (sampleBlock.drop (0 + 1))] ∧
      (buildDiag sampleHeader ⟨"top.sv".toList, some 10, some 3⟩ 10
          (sampleBlock.drop (0 + 1))).related =
        bottomScan (headerCtx ⟨"top.sv".toList, some 10, some 3⟩ 10
            (sampleBlock.drop (0 + 1))) (sampleBlock.drop (0 + 1)) []
          ++ (collectElabs (sampleBlock.drop (0 + 1))).map
              (fun v => ⟨"top.sv".toList,
                headerRange ⟨"top.sv".toList, some 10, some 3⟩ 10
                  (sampleBlock.drop (0 + 1)), v⟩) :=
  c9_related_is_bottoms_then_elabs sampleBlock 0 [] sampleHeader
    ⟨"top.sv".toList, some 10, some 3⟩ 10 (by decide) (by decide) (by decide) (by decide)

/-- C10: a header whose location matched with a recognized file suffix but
with an absent line number creates an entry for that file — the path becomes
a key mapped to the empty diagnostics list — before the header is dropped, so
the drop is observable in the per-file grouping and is not atomic. -/
theorem c10_dropped_header_leaves_empty_entry (lines : List Str) (i : Nat) (fd : Fd)
    (h : Header) (loc : Loc)
    (hstart : hasLead ("%".toList) (lines.getD i []) = true)
    (hx : execHeader (lines.getD i []) = some h)
    (hloc : h.loc = some loc) (hln : loc.lineNo = none)
    (habs : lookupFd fd loc.path = none) :
    processLine lines i fd =
      some ([(logSevOfHeader h, lines.getD i [])], fd ++ [(loc.path, [])])
    ∧ lookupFd (fd ++ [(loc.path, [])]) loc.path = some [] := by
  obtain ⟨path, olno, ocno⟩ := loc
  have hln' : olno = none := hln
  subst hln'
  obtain ⟨sev, code, oloc, verb⟩ := h
  have hloc' : oloc = some ⟨path, none, ocno⟩ := hloc
  subst hloc'
  have habs' : lookupFd fd path = none := habs
  constructor
  · simp only [processLine]
    rw [if_pos hstart, hx]
    show some ([(logSevOfHeader ⟨sev, code, some ⟨path, none, ocno⟩, verb⟩,
      lines.getD i [])], ensureFd fd path) = _
    unfold ensureFd
    rw [habs']
  · simp [lookupFd_append, habs']

/-- C10 witness: the header "%Error: foo.sv: msg" (suffix recognized, no line
number) leaves foo.sv as a key of the map with an empty diagnostics list. -/
theorem c10_dropped_header_leaves_empty_entry_witness :
    processLine ["%Error: foo.sv: msg".toList] 0 [] =
      some ([(logSevOfHeader ⟨"Error".toList, none,
        some ⟨"foo.sv".toList, none, none⟩, "msg".toList⟩,
        (["%Error: foo.sv: msg".toList].getD 0 []))],
        [] ++ [("foo.sv".toList, [])])
    ∧ lookupFd ([] ++ [("foo.sv".toList, [])]) ("foo.sv".toList) = some [] :=
  c10_dropped_header_leaves_empty_entry ["%Error: foo.sv: msg".toList] 0 []
    ⟨"Error".toList, none, some ⟨"foo.sv".toList, none, none⟩, "msg".toList⟩
    ⟨"foo.sv".toList, none, none⟩ (by decide) (by decide) (by decide) (by decide) (by decide)
